import Mathlib

set_option maxRecDepth 8192

/-!
Shallow embedding of the mahm3lib PWM / PIO / ADC drivers (SAM3X8E
board-support library).  Register words are modelled as `Nat` values taken
modulo 2^32 where it matters; bitwise C operators map to `&&&`, `|||`,
`^^^`, `<<<`, `>>>` on `Nat`.  The constants below are transcribed from
`src/sam3x8e/pwm.h`.
-/

/-- The all-ones 32-bit word, used to model the C bitwise complement
`~m` on a `uint32_t` as `mask32 ^^^ m`. -/
def mask32 : Nat := 0xFFFFFFFF

/-- Mask for the clock-A prescaler field of PWM_CLK (`pwm.h`). -/
def PWM_CLK_PREA_MASK : Nat := 0x00000F00

/-- Mask for the clock-B prescaler field of PWM_CLK (`pwm.h`). -/
def PWM_CLK_PREB_MASK : Nat := 0x0F000000

/-- Mask for the clock-A divisor field of PWM_CLK (`pwm.h`). -/
def PWM_CLK_DIVA_MASK : Nat := 0x000000FF

/-- Mask for the clock-B divisor field of PWM_CLK (`pwm.h`). -/
def PWM_CLK_DIVB_MASK : Nat := 0x00FF0000

/-- Mask for the channel prescaler field of PWM_CMRx (`pwm.h`). -/
def PWM_CMRx_CPRE_MASK : Nat := 0x0000000F

/-- Mask for the channel alignment bit of PWM_CMRx (`pwm.h`). -/
def PWM_CMRx_CALG_MASK : Nat := 1 <<< 8

/-- Mask for the channel polarity bit of PWM_CMRx (`pwm.h`). -/
def PWM_CMRx_CPOL_MASK : Nat := 1 <<< 9

/-- Channel-mode prescaler code selecting auxiliary clock A (`pwm.h`). -/
def PWM_PRES_CLOCKA : Nat := 0b1011

/-- Channel-mode prescaler code selecting auxiliary clock B (`pwm.h`). -/
def PWM_PRES_CLOCKB : Nat := 0b1100

/-- Identifier of auxiliary clock A (`pwm.h`). -/
def PWM_CLK_ID_CLKA : Nat := 0

/-- Identifier of auxiliary clock B (`pwm.h`). -/
def PWM_CLK_ID_CLKB : Nat := 1

/-- Left alignment parameter value (`pwm.h`). -/
def PWM_CHANNEL_ALIGN_LEFT : Nat := 0

/-- Center alignment parameter value (`pwm.h`). -/
def PWM_CHANNEL_ALIGN_CENTER : Nat := 1

/-- Natural-number division rounded to the nearest integer (half rounds up),
the rounding rule the specification prescribes for the frequency search. -/
def rdiv (a b : Nat) : Nat := (a + b / 2) / b

/-- Modelled from the spec: the PWM implementation file (`pwm.c`) is absent
from the repository sources, so the frequency search is modelled from the
specification: the candidate period (or divisor) obtained from prescaler
code `code` is `(sysclk / 2 ^ code) / f` rounded to nearest. -/
def pwm_candidate (sysclk f code : Nat) : Nat := rdiv (sysclk / 2 ^ code) f

/-- Modelled from the spec: bounded first-fit scan over consecutive
prescaler codes, starting at `code` with `fuel` codes left to try; a code
is accepted when its candidate value lies in `[1, bound]`. -/
def searchAux (sysclk f bound : Nat) : Nat → Nat → Option (Nat × Nat)
  | 0, _ => none
  | fuel + 1, code =>
      let p := pwm_candidate sysclk f code
      if 1 ≤ p ∧ p ≤ bound then some (code, p)
      else searchAux sysclk f bound fuel (code + 1)

/-- Modelled from the spec: scan the 11 fixed prescaler codes 0..10 in
increasing order of division and return the first whose candidate period
(or divisor) lies in `[1, bound]`. -/
def pwm_find_setting (sysclk f bound : Nat) : Option (Nat × Nat) :=
  searchAux sysclk f bound 11 0

/-- Modelled from the spec: the channel-setting argument structure of
`pwm_init_channel`, transcribed from `pwm_channel_setting` in `pwm.h`. -/
structure pwm_channel_setting where
  channel : Nat
  polarity : Nat
  alignment : Nat
  duty_cycle : Nat
  use_CLKx : Nat
  frequency : Nat
  clock_ID : Nat
deriving DecidableEq

/-- Modelled from the spec: the PWM register surface — the clock register,
the channel status bits (one bit per channel, mirroring PWM_SR), and the
per-channel mode, period, duty and duty-update registers as lists indexed
by channel number. -/
structure PwmState where
  clk : Nat
  sr : Nat
  cmr : List Nat
  cprd : List Nat
  cdty : List Nat
  cdtyupd : List Nat
deriving DecidableEq

/-- Read a per-channel register bank at a channel index. -/
def getReg (regs : List Nat) (ch : Nat) : Nat := regs.getD ch 0

/-- Write a per-channel register bank at a channel index. -/
def setReg (regs : List Nat) (ch v : Nat) : List Nat := regs.set ch v

/-- The all-zero power-on register state with 8 channels. -/
def pwmZero : PwmState :=
  ⟨0, 0, List.replicate 8 0, List.replicate 8 0,
    List.replicate 8 0, List.replicate 8 0⟩

/-- Modelled from the spec: enabling a channel sets its status bit. -/
def pwm_channel_enable (s : PwmState) (ch : Nat) : PwmState :=
  { s with sr := s.sr ||| (1 <<< ch) }

/-- Modelled from the spec: disabling a channel clears its status bit. -/
def pwm_channel_disable (s : PwmState) (ch : Nat) : PwmState :=
  { s with sr := s.sr &&& (mask32 ^^^ (1 <<< ch)) }

/-- Modelled from the spec: the channel status is the channel's bit of the
hardware status register, returned as 0 or 1. -/
def pwm_channel_status (s : PwmState) (ch : Nat) : Nat :=
  (s.sr >>> ch) &&& 1

/-- Replace a channel's mode-register word. -/
def updCmr (s : PwmState) (ch v : Nat) : PwmState :=
  { s with cmr := setReg s.cmr ch v }

/-- Replace a channel's duty-register word. -/
def updCdty (s : PwmState) (ch v : Nat) : PwmState :=
  { s with cdty := setReg s.cdty ch v }

/-- Replace a channel's duty-update-register word. -/
def updCdtyupd (s : PwmState) (ch v : Nat) : PwmState :=
  { s with cdtyupd := setReg s.cdtyupd ch v }

/-- Replace the shared clock-register word. -/
def updClk (s : PwmState) (v : Nat) : PwmState :=
  { s with clk := v }

/-- Modelled from the spec: read-modify-write of the prescaler field
(bits selected by `PWM_CMRx_CPRE_MASK`) of a channel mode register. -/
def setCmrPres (s : PwmState) (ch code : Nat) : PwmState :=
  updCmr s ch ((getReg s.cmr ch &&& (mask32 ^^^ PWM_CMRx_CPRE_MASK)) ||| code)

/-- Modelled from the spec: read-modify-write of the alignment bit
(selected by `PWM_CMRx_CALG_MASK`) of a channel mode register. -/
def setCmrAlignment (s : PwmState) (ch a : Nat) : PwmState :=
  updCmr s ch ((getReg s.cmr ch &&& (mask32 ^^^ PWM_CMRx_CALG_MASK)) ||| (a <<< 8))

/-- Modelled from the spec: read-modify-write of the polarity bit
(selected by `PWM_CMRx_CPOL_MASK`) of a channel mode register. -/
def setCmrPolarity (s : PwmState) (ch pol : Nat) : PwmState :=
  updCmr s ch ((getReg s.cmr ch &&& (mask32 ^^^ PWM_CMRx_CPOL_MASK)) ||| (pol <<< 9))

/-- Modelled from the spec: write the channel period register. -/
def pwm_set_channel_period (s : PwmState) (ch p : Nat) : PwmState :=
  { s with cprd := setReg s.cprd ch p }

/-- Modelled from the spec: read the alignment bit of a channel. -/
def pwm_get_channel_alignment (s : PwmState) (ch : Nat) : Nat :=
  (getReg s.cmr ch >>> 8) &&& 1

/-- Modelled from the spec: the largest admissible period for a channel —
65535 under left alignment, halved under center alignment. -/
def chanMaxPeriod (s : PwmState) (ch : Nat) : Nat :=
  if pwm_get_channel_alignment s ch = PWM_CHANNEL_ALIGN_CENTER
  then 65535 / 2 else 65535

/-- Modelled from the spec: `pwm_set_channel_frequency` (declared in
`pwm.h`, implementation absent) — search the 11 fixed prescalers in
increasing order for the first period in range; on failure return status 0
with no register touched; on success disable the channel, write prescaler
and period, and re-enable the channel when it was enabled before. -/
def pwm_set_channel_frequency (sysclk : Nat) (s : PwmState) (ch f : Nat) :
    Nat × PwmState :=
  if 8 ≤ ch then (0, s) else
  match pwm_find_setting sysclk f (chanMaxPeriod s ch) with
  | none => (0, s)
  | some (code, p) =>
      let was := pwm_channel_status s ch
      let s1 := pwm_channel_disable s ch
      let s2 := setCmrPres s1 ch code
      let s3 := pwm_set_channel_period s2 ch p
      (1, if was = 1 then pwm_channel_enable s3 ch else s3)

/-- Modelled from the spec: `pwm_init_channel` (declared in `pwm.h`,
implementation absent) — disable the channel, write polarity and
alignment, then either select an auxiliary clock through the sentinel
prescaler code or run the frequency search; write the initial duty cycle;
restore the previous enable state on every exit path. -/
def pwm_init_channel (sysclk : Nat) (s : PwmState) (c : pwm_channel_setting) :
    Nat × PwmState :=
  if 8 ≤ c.channel then (0, s) else
  let ch := c.channel
  let was := pwm_channel_status s ch
  let s1 := pwm_channel_disable s ch
  let s2 := setCmrPolarity s1 ch c.polarity
  let s3 := setCmrAlignment s2 ch c.alignment
  if c.use_CLKx = 1 then
    let code := if c.clock_ID = PWM_CLK_ID_CLKB
                then PWM_PRES_CLOCKB else PWM_PRES_CLOCKA
    let s4 := setCmrPres s3 ch code
    let s5 := updCdty s4 ch c.duty_cycle
    (1, if was = 1 then pwm_channel_enable s5 ch else s5)
  else
    match pwm_find_setting sysclk c.frequency
        (if c.alignment = PWM_CHANNEL_ALIGN_CENTER then 65535 / 2 else 65535) with
    | none => (0, if was = 1 then pwm_channel_enable s3 ch else s3)
    | some (code, p) =>
        let s4 := setCmrPres s3 ch code
        let s5 := pwm_set_channel_period s4 ch p
        let s6 := updCdty s5 ch c.duty_cycle
        (1, if was = 1 then pwm_channel_enable s6 ch else s6)

/-- Modelled from the spec: `pwm_set_clkx` (declared in `pwm.h`,
implementation absent) — read-modify-write of the selected auxiliary
clock's prescaler and divisor fields of PWM_CLK, through the mask
constants of `pwm.h`; an unknown clock id is a failing no-op. -/
def pwm_set_clkx (s : PwmState) (clock_id prescaler divisor : Nat) :
    Nat × PwmState :=
  if clock_id = PWM_CLK_ID_CLKA then
    (1, updClk s ((s.clk &&& (mask32 ^^^ (PWM_CLK_PREA_MASK ||| PWM_CLK_DIVA_MASK))) ||| ((prescaler <<< 8) ||| divisor)))
  else if clock_id = PWM_CLK_ID_CLKB then
    (1, updClk s ((s.clk &&& (mask32 ^^^ (PWM_CLK_PREB_MASK ||| PWM_CLK_DIVB_MASK))) ||| ((prescaler <<< 24) ||| (divisor <<< 16))))
  else (0, s)

/-- Modelled from the spec: `pwm_turn_off_clkx` (declared in `pwm.h`,
implementation absent) — clear the selected clock's divisor field,
leaving its prescaler field and the whole other clock untouched. -/
def pwm_turn_off_clkx (s : PwmState) (clock_id : Nat) : Nat × PwmState :=
  if clock_id = PWM_CLK_ID_CLKA then
    (1, updClk s (s.clk &&& (mask32 ^^^ PWM_CLK_DIVA_MASK)))
  else if clock_id = PWM_CLK_ID_CLKB then
    (1, updClk s (s.clk &&& (mask32 ^^^ PWM_CLK_DIVB_MASK)))
  else (0, s)

/-- Modelled from the spec: `pwm_set_clkx_frequency` (declared in `pwm.h`,
implementation absent) — search the 11 prescalers in increasing order for
the first divisor in `[1, 255]`; on failure return status 0 with no
register touched; on success commit the pair through `pwm_set_clkx`. -/
def pwm_set_clkx_frequency (sysclk : Nat) (s : PwmState)
    (_channel f clock_id : Nat) : Nat × PwmState :=
  match pwm_find_setting sysclk f 255 with
  | none => (0, s)
  | some (code, d) => pwm_set_clkx s clock_id code d

/-- Modelled from the spec: `pwm_set_channel_duty_cycle` (declared in
`pwm.h`, implementation absent) — reject a duty cycle exceeding the
channel's programmed period without touching any register; otherwise
write the duty-update register when the channel is running and the duty
register when it is stopped. -/
def pwm_set_channel_duty_cycle (s : PwmState) (ch duty : Nat) :
    Nat × PwmState :=
  if 8 ≤ ch then (0, s) else
  if getReg s.cprd ch < duty then (0, s) else
  if pwm_channel_status s ch = 1 then
    (1, updCdtyupd s ch duty)
  else
    (1, updCdty s ch duty)

/-- Register surface of one PIO port. The fields are the registers
`pio.c` accesses; `pio_reg_t` itself is declared in the header. -/
structure pio_reg_t where
  PIO_PER : Nat
  PIO_ODR : Nat
  PIO_OER : Nat
  PIO_PUER : Nat
  PIO_PUDR : Nat
  PIO_SODR : Nat
  PIO_CODR : Nat
  PIO_PDSR : Nat
deriving DecidableEq

/-- Transcription of `pio_set_pins` from `pio.c`: when `level` equals 1 the
selected pins are or-ed into PIO_SODR, otherwise they are and-not-ed out
of PIO_SODR; no other register is accessed. -/
def pio_set_pins (port : pio_reg_t) (pin_numbers : Nat) (level : Nat) : pio_reg_t :=
  if level = 1 then { port with PIO_SODR := port.PIO_SODR ||| pin_numbers }
  else { port with PIO_SODR := port.PIO_SODR &&& (mask32 ^^^ pin_numbers) }

/-- An all-zero PIO port state. -/
def pioZero : pio_reg_t := ⟨0, 0, 0, 0, 0, 0, 0, 0⟩

/-- Register surface of the ADC peripheral, the registers `adc.c`
accesses. -/
structure adc_reg_t where
  ADC_CR : Nat
  ADC_MR : Nat
  ADC_CHER : Nat
  ADC_CHDR : Nat
  ADC_CHSR : Nat
deriving DecidableEq

/-- Transcription of `adc_set_resolution` from `adc.c`. The macro
`ADC_MR_RES` comes from the header `adc.h`, which is absent from the
repository sources, so it is taken as an arbitrary function parameter;
the control flow — and-write for argument 0, or-write for argument 1, no
access otherwise — is exactly the C function's. -/
def adc_set_resolution (ADC_MR_RES : Nat → Nat) (adc : adc_reg_t)
    (resolution : Nat) : adc_reg_t :=
  if resolution = 0 then { adc with ADC_MR := adc.ADC_MR &&& ADC_MR_RES resolution }
  else if resolution = 1 then { adc with ADC_MR := adc.ADC_MR ||| ADC_MR_RES resolution }
  else adc

/-!
Helper lemmas: first-fit property of the prescaler scan, status-bit
arithmetic, and bit-level placement of the register fields.
-/

theorem searchAux_some (sysclk f bound : Nat) :
    ∀ fuel code c p, searchAux sysclk f bound fuel code = some (c, p) →
      code ≤ c ∧ c < code + fuel ∧ p = pwm_candidate sysclk f c ∧
      1 ≤ p ∧ p ≤ bound ∧
      ∀ j, code ≤ j → j < c →
        ¬(1 ≤ pwm_candidate sysclk f j ∧ pwm_candidate sysclk f j ≤ bound) := by
  intro fuel
  induction fuel with
  | zero => intro code c p h; simp [searchAux] at h
  | succ n ih =>
    intro code c p h
    simp only [searchAux] at h
    split at h
    · rename_i hcond
      obtain ⟨rfl, rfl⟩ : code = c ∧ pwm_candidate sysclk f code = p := by
        constructor <;> cases h <;> rfl
      exact ⟨Nat.le_refl _, by omega, rfl, hcond.1, hcond.2,
        fun j h1 h2 => absurd h1 (by omega)⟩
    · rename_i hcond
      obtain ⟨h1, h2, h3, h4, h5, h6⟩ := ih (code + 1) c p h
      refine ⟨by omega, by omega, h3, h4, h5, ?_⟩
      intro j hj1 hj2
      rcases Nat.eq_or_lt_of_le hj1 with heq | hlt
      · subst heq; exact hcond
      · exact h6 j (by omega) hj2

theorem pwm_candidate_antitone (sysclk f : Nat) {c j : Nat} (h : c ≤ j) :
    pwm_candidate sysclk f j ≤ pwm_candidate sysclk f c := by
  unfold pwm_candidate rdiv
  have h1 : sysclk / 2 ^ j ≤ sysclk / 2 ^ c :=
    Nat.div_le_div_left (Nat.pow_le_pow_right (by norm_num) h)
      (Nat.pos_pow_of_pos c (by norm_num))
  exact Nat.div_le_div_right (Nat.add_le_add_right h1 _)

theorem bit_as_testBit (x i : Nat) : (x >>> i) &&& 1 = if x.testBit i then 1 else 0 := by
  rw [Nat.and_one_is_mod, Nat.shiftRight_eq_div_pow]
  rcases Nat.mod_two_eq_zero_or_one (x / 2 ^ i) with h | h <;>
    simp [Nat.testBit_to_div_mod, h]

theorem mask32_eq : mask32 = 2 ^ 32 - 1 := by norm_num [mask32]

theorem mask32_testBit (ch : Nat) (h : ch < 32) : Nat.testBit mask32 ch = true := by
  rw [mask32_eq, Nat.testBit_two_pow_sub_one]
  simp [h]

theorem status_zero_or_one (s : PwmState) (ch : Nat) :
    pwm_channel_status s ch = 0 ∨ pwm_channel_status s ch = 1 := by
  unfold pwm_channel_status; rw [Nat.and_one_is_mod]; omega

theorem status_enable (s : PwmState) (ch : Nat) :
    pwm_channel_status (pwm_channel_enable s ch) ch = 1 := by
  unfold pwm_channel_status pwm_channel_enable
  rw [bit_as_testBit]
  simp [Nat.testBit_or, Nat.one_shiftLeft, Nat.testBit_two_pow_self]

theorem status_disable (s : PwmState) (ch : Nat) (h : ch < 32) :
    pwm_channel_status (pwm_channel_disable s ch) ch = 0 := by
  unfold pwm_channel_status pwm_channel_disable
  rw [bit_as_testBit]
  simp [Nat.testBit_and, Nat.testBit_xor, Nat.one_shiftLeft, Nat.testBit_two_pow_self,
    mask32_testBit ch h]

theorem status_restore (s : PwmState) (ch : Nat) (h : ch < 32) (t : PwmState)
    (hsr : t.sr = (pwm_channel_disable s ch).sr) :
    pwm_channel_status
        (if pwm_channel_status s ch = 1 then pwm_channel_enable t ch else t) ch
      = pwm_channel_status s ch := by
  have htst : pwm_channel_status t ch
      = pwm_channel_status (pwm_channel_disable s ch) ch := by
    unfold pwm_channel_status; rw [hsr]
  by_cases hw : pwm_channel_status s ch = 1
  · simp only [hw, if_pos]
    rw [status_enable]
  · rcases status_zero_or_one s ch with h0 | h1
    · simp only [hw, if_neg, not_false_iff]
      rw [htst, status_disable s ch h, h0]
    · exact absurd h1 hw

theorem status_preserved_set_frequency (sysclk : Nat) (s : PwmState) (ch f : Nat) :
    pwm_channel_status (pwm_set_channel_frequency sysclk s ch f).2 ch
      = pwm_channel_status s ch := by
  unfold pwm_set_channel_frequency
  split
  · rfl
  · rename_i hch
    cases hfind : pwm_find_setting sysclk f (chanMaxPeriod s ch) with
    | none => rfl
    | some cp =>
      obtain ⟨code, p⟩ := cp
      simp only []
      exact status_restore s ch (by omega) _ rfl

theorem status_preserved_init_channel (sysclk : Nat) (s : PwmState)
    (c : pwm_channel_setting) :
    pwm_channel_status (pwm_init_channel sysclk s c).2 c.channel
      = pwm_channel_status s c.channel := by
  unfold pwm_init_channel
  split
  · rfl
  · rename_i hch
    split
    · exact status_restore s c.channel (by omega) _ rfl
    · cases hfind : pwm_find_setting sysclk c.frequency
          (if c.alignment = PWM_CHANNEL_ALIGN_CENTER then 65535 / 2 else 65535) with
      | none =>
        simp only [hfind]
        exact status_restore s c.channel (by omega) _ rfl
      | some cp =>
        obtain ⟨code, p⟩ := cp
        simp only [hfind]
        exact status_restore s c.channel (by omega) _ rfl

theorem tb_DIVA (i : Nat) : Nat.testBit PWM_CLK_DIVA_MASK i = decide (i < 8) := by
  have h : PWM_CLK_DIVA_MASK = 2 ^ 8 - 1 := by decide
  rw [h, Nat.testBit_two_pow_sub_one]

theorem tb_PREA (i : Nat) :
    Nat.testBit PWM_CLK_PREA_MASK i = (decide (8 ≤ i) && decide (i - 8 < 4)) := by
  have h : PWM_CLK_PREA_MASK = (2 ^ 4 - 1) <<< 8 := by decide
  rw [h, Nat.testBit_shiftLeft, Nat.testBit_two_pow_sub_one]

theorem tb_DIVB (i : Nat) :
    Nat.testBit PWM_CLK_DIVB_MASK i = (decide (16 ≤ i) && decide (i - 16 < 8)) := by
  have h : PWM_CLK_DIVB_MASK = (2 ^ 8 - 1) <<< 16 := by decide
  rw [h, Nat.testBit_shiftLeft, Nat.testBit_two_pow_sub_one]

theorem tb_PREB (i : Nat) :
    Nat.testBit PWM_CLK_PREB_MASK i = (decide (24 ≤ i) && decide (i - 24 < 4)) := by
  have h : PWM_CLK_PREB_MASK = (2 ^ 4 - 1) <<< 24 := by decide
  rw [h, Nat.testBit_shiftLeft, Nat.testBit_two_pow_sub_one]

theorem tb_small {v n i : Nat} (hv : v < 2 ^ n) (h : n ≤ i) : Nat.testBit v i = false :=
  Nat.testBit_lt_two_pow (lt_of_lt_of_le hv (Nat.pow_le_pow_right (by norm_num) h))

theorem clkA_write_eq (s : PwmState) (p d : Nat) :
    (pwm_set_clkx s PWM_CLK_ID_CLKA p d).2.clk
      = (s.clk &&& (mask32 ^^^ (PWM_CLK_PREA_MASK ||| PWM_CLK_DIVA_MASK)))
          ||| ((p <<< 8) ||| d) := rfl

theorem clkB_write_eq (s : PwmState) (p d : Nat) :
    (pwm_set_clkx s PWM_CLK_ID_CLKB p d).2.clk
      = (s.clk &&& (mask32 ^^^ (PWM_CLK_PREB_MASK ||| PWM_CLK_DIVB_MASK)))
          ||| ((p <<< 24) ||| (d <<< 16)) := rfl

theorem clkA_write_low (s : PwmState) (p d : Nat) (i : Nat) (hi : i < 8) :
    ((pwm_set_clkx s PWM_CLK_ID_CLKA p d).2.clk).testBit i = d.testBit i := by
  rw [clkA_write_eq]
  simp only [Nat.testBit_or, Nat.testBit_and, Nat.testBit_xor, Nat.testBit_shiftLeft,
    tb_PREA i, tb_DIVA i, mask32_testBit i (by omega)]
  simp [show i < 12 by omega, show ¬ 8 ≤ i by omega]

theorem clkA_write_pres (s : PwmState) (p d : Nat) (hd : d < 256) (i : Nat)
    (h8 : 8 ≤ i) (h12 : i < 12) :
    ((pwm_set_clkx s PWM_CLK_ID_CLKA p d).2.clk).testBit i = p.testBit (i - 8) := by
  rw [clkA_write_eq]
  simp only [Nat.testBit_or, Nat.testBit_and, Nat.testBit_xor, Nat.testBit_shiftLeft,
    tb_PREA i, tb_DIVA i, mask32_testBit i (by omega)]
  simp [h12, h8, show i - 8 < 4 by omega, tb_small (show d < 2 ^ 8 from hd) h8]

theorem clkA_write_high (s : PwmState) (p d : Nat) (hp : p < 16) (hd : d < 256) (i : Nat)
    (h12 : 12 ≤ i) (h32 : i < 32) :
    ((pwm_set_clkx s PWM_CLK_ID_CLKA p d).2.clk).testBit i = s.clk.testBit i := by
  rw [clkA_write_eq]
  simp only [Nat.testBit_or, Nat.testBit_and, Nat.testBit_xor, Nat.testBit_shiftLeft,
    tb_PREA i, tb_DIVA i, mask32_testBit i (by omega)]
  simp [show ¬ i < 12 by omega, show 8 ≤ i by omega, show ¬ i - 8 < 4 by omega,
    tb_small (show d < 2 ^ 8 from hd) (show 8 ≤ i by omega),
    tb_small (show p < 2 ^ 4 from hp) (show 4 ≤ i - 8 by omega)]

theorem clkB_write_out_low (s : PwmState) (p d : Nat) (i : Nat) (hi : i < 16) :
    ((pwm_set_clkx s PWM_CLK_ID_CLKB p d).2.clk).testBit i = s.clk.testBit i := by
  rw [clkB_write_eq]
  simp only [Nat.testBit_or, Nat.testBit_and, Nat.testBit_xor, Nat.testBit_shiftLeft,
    tb_PREB i, tb_DIVB i, mask32_testBit i (by omega)]
  simp [show ¬ 16 ≤ i by omega, show ¬ 24 ≤ i by omega]

theorem clkB_write_div (s : PwmState) (p d : Nat) (i : Nat)
    (h16 : 16 ≤ i) (h24 : i < 24) :
    ((pwm_set_clkx s PWM_CLK_ID_CLKB p d).2.clk).testBit i = d.testBit (i - 16) := by
  rw [clkB_write_eq]
  simp only [Nat.testBit_or, Nat.testBit_and, Nat.testBit_xor, Nat.testBit_shiftLeft,
    tb_PREB i, tb_DIVB i, mask32_testBit i (by omega)]
  simp [h16, show ¬ 24 ≤ i by omega, show i - 16 < 8 by omega]

theorem clkB_write_pres (s : PwmState) (p d : Nat) (hd : d < 256) (i : Nat)
    (h24 : 24 ≤ i) (h28 : i < 28) :
    ((pwm_set_clkx s PWM_CLK_ID_CLKB p d).2.clk).testBit i = p.testBit (i - 24) := by
  rw [clkB_write_eq]
  simp only [Nat.testBit_or, Nat.testBit_and, Nat.testBit_xor, Nat.testBit_shiftLeft,
    tb_PREB i, tb_DIVB i, mask32_testBit i (by omega)]
  simp [h24, show 16 ≤ i by omega, show ¬ i - 16 < 8 by omega, show i - 24 < 4 by omega,
    tb_small (show d < 2 ^ 8 from hd) (show 8 ≤ i - 16 by omega)]

theorem clkB_write_out_high (s : PwmState) (p d : Nat) (hp : p < 16) (hd : d < 256)
    (i : Nat) (h28 : 28 ≤ i) (h32 : i < 32) :
    ((pwm_set_clkx s PWM_CLK_ID_CLKB p d).2.clk).testBit i = s.clk.testBit i := by
  rw [clkB_write_eq]
  simp only [Nat.testBit_or, Nat.testBit_and, Nat.testBit_xor, Nat.testBit_shiftLeft,
    tb_PREB i, tb_DIVB i, mask32_testBit i (by omega)]
  simp [show 16 ≤ i by omega, show 24 ≤ i by omega, show ¬ i - 16 < 8 by omega,
    show ¬ i - 24 < 4 by omega,
    tb_small (show d < 2 ^ 8 from hd) (show 8 ≤ i - 16 by omega),
    tb_small (show p < 2 ^ 4 from hp) (show 4 ≤ i - 24 by omega)]

theorem turnoffA_eq (s : PwmState) :
    (pwm_turn_off_clkx s PWM_CLK_ID_CLKA).2.clk
      = s.clk &&& (mask32 ^^^ PWM_CLK_DIVA_MASK) := rfl

theorem turnoffB_eq (s : PwmState) :
    (pwm_turn_off_clkx s PWM_CLK_ID_CLKB).2.clk
      = s.clk &&& (mask32 ^^^ PWM_CLK_DIVB_MASK) := rfl

theorem turnoffA_high (s : PwmState) (i : Nat) (h8 : 8 ≤ i) (h32 : i < 32) :
    ((pwm_turn_off_clkx s PWM_CLK_ID_CLKA).2.clk).testBit i = s.clk.testBit i := by
  rw [turnoffA_eq]
  simp only [Nat.testBit_and, Nat.testBit_xor, tb_DIVA i, mask32_testBit i (by omega)]
  simp [show ¬ i < 8 by omega]

theorem turnoffB_low (s : PwmState) (i : Nat) (h16 : i < 16) :
    ((pwm_turn_off_clkx s PWM_CLK_ID_CLKB).2.clk).testBit i = s.clk.testBit i := by
  rw [turnoffB_eq]
  simp only [Nat.testBit_and, Nat.testBit_xor, tb_DIVB i, mask32_testBit i (by omega)]
  simp [show ¬ 16 ≤ i by omega]

theorem getReg_setReg (l : List Nat) (ch v : Nat) (h : ch < l.length) :
    getReg (setReg l ch v) ch = v := by
  simp [getReg, setReg, List.getD, List.getElem?_set_self', h]

theorem tb_CPRE (i : Nat) : Nat.testBit PWM_CMRx_CPRE_MASK i = decide (i < 4) := by
  have h : PWM_CMRx_CPRE_MASK = 2 ^ 4 - 1 := by decide
  rw [h, Nat.testBit_two_pow_sub_one]

theorem tb_CALG (i : Nat) : Nat.testBit PWM_CMRx_CALG_MASK i = decide (8 = i) := by
  have h : PWM_CMRx_CALG_MASK = 2 ^ 8 := by decide
  rw [h, Nat.testBit_two_pow]

theorem tb_CPOL (i : Nat) : Nat.testBit PWM_CMRx_CPOL_MASK i = decide (9 = i) := by
  have h : PWM_CMRx_CPOL_MASK = 2 ^ 9 := by decide
  rw [h, Nat.testBit_two_pow]

theorem cmrPres_eq (s : PwmState) (ch code : Nat) (h : ch < s.cmr.length) :
    getReg (setCmrPres s ch code).cmr ch
      = (getReg s.cmr ch &&& (mask32 ^^^ PWM_CMRx_CPRE_MASK)) ||| code := by
  unfold setCmrPres updCmr
  exact getReg_setReg _ _ _ h

theorem cmrPres_low (s : PwmState) (ch code : Nat) (h : ch < s.cmr.length)
    (i : Nat) (hi : i < 4) :
    (getReg (setCmrPres s ch code).cmr ch).testBit i = code.testBit i := by
  rw [cmrPres_eq s ch code h]
  simp only [Nat.testBit_or, Nat.testBit_and, Nat.testBit_xor,
    tb_CPRE i, mask32_testBit i (by omega)]
  simp [hi]

theorem cmrPres_high (s : PwmState) (ch code : Nat) (hcode : code < 16)
    (h : ch < s.cmr.length) (i : Nat) (h4 : 4 ≤ i) (h32 : i < 32) :
    (getReg (setCmrPres s ch code).cmr ch).testBit i = (getReg s.cmr ch).testBit i := by
  rw [cmrPres_eq s ch code h]
  simp only [Nat.testBit_or, Nat.testBit_and, Nat.testBit_xor,
    tb_CPRE i, mask32_testBit i (by omega)]
  simp [show ¬ i < 4 by omega, tb_small (show code < 2 ^ 4 from hcode) h4]

theorem cmrAlign_eq (s : PwmState) (ch a : Nat) (h : ch < s.cmr.length) :
    getReg (setCmrAlignment s ch a).cmr ch
      = (getReg s.cmr ch &&& (mask32 ^^^ PWM_CMRx_CALG_MASK)) ||| (a <<< 8) := by
  unfold setCmrAlignment updCmr
  exact getReg_setReg _ _ _ h

theorem cmrAlign_bit (s : PwmState) (ch a : Nat) (h : ch < s.cmr.length) :
    (getReg (setCmrAlignment s ch a).cmr ch).testBit 8 = a.testBit 0 := by
  rw [cmrAlign_eq s ch a h]
  simp only [Nat.testBit_or, Nat.testBit_and, Nat.testBit_xor, Nat.testBit_shiftLeft,
    tb_CALG 8, mask32_testBit 8 (by omega)]
  simp

theorem cmrAlign_other (s : PwmState) (ch a : Nat) (ha : a < 2)
    (h : ch < s.cmr.length) (i : Nat) (hi : i ≠ 8) (h32 : i < 32) :
    (getReg (setCmrAlignment s ch a).cmr ch).testBit i = (getReg s.cmr ch).testBit i := by
  rw [cmrAlign_eq s ch a h]
  simp only [Nat.testBit_or, Nat.testBit_and, Nat.testBit_xor, Nat.testBit_shiftLeft,
    tb_CALG i, mask32_testBit i (by omega)]
  rcases Nat.lt_or_ge i 8 with hlt | hge
  · simp [show ¬ 8 = i by omega, show ¬ 8 ≤ i by omega]
  · simp [show ¬ 8 = i by omega, show 8 ≤ i by omega,
      tb_small (show a < 2 ^ 1 from ha) (show 1 ≤ i - 8 by omega)]

theorem cmrPol_eq (s : PwmState) (ch pol : Nat) (h : ch < s.cmr.length) :
    getReg (setCmrPolarity s ch pol).cmr ch
      = (getReg s.cmr ch &&& (mask32 ^^^ PWM_CMRx_CPOL_MASK)) ||| (pol <<< 9) := by
  unfold setCmrPolarity updCmr
  exact getReg_setReg _ _ _ h

theorem cmrPol_bit (s : PwmState) (ch pol : Nat) (h : ch < s.cmr.length) :
    (getReg (setCmrPolarity s ch pol).cmr ch).testBit 9 = pol.testBit 0 := by
  rw [cmrPol_eq s ch pol h]
  simp only [Nat.testBit_or, Nat.testBit_and, Nat.testBit_xor, Nat.testBit_shiftLeft,
    tb_CPOL 9, mask32_testBit 9 (by omega)]
  simp

theorem cmrPol_other (s : PwmState) (ch pol : Nat) (hp : pol < 2)
    (h : ch < s.cmr.length) (i : Nat) (hi : i ≠ 9) (h32 : i < 32) :
    (getReg (setCmrPolarity s ch pol).cmr ch).testBit i = (getReg s.cmr ch).testBit i := by
  rw [cmrPol_eq s ch pol h]
  simp only [Nat.testBit_or, Nat.testBit_and, Nat.testBit_xor, Nat.testBit_shiftLeft,
    tb_CPOL i, mask32_testBit i (by omega)]
  rcases Nat.lt_or_ge i 9 with hlt | hge
  · simp [show ¬ 9 = i by omega, show ¬ 9 ≤ i by omega]
  · simp [show ¬ 9 = i by omega, show 9 ≤ i by omega,
      tb_small (show pol < 2 ^ 1 from hp) (show 1 ≤ i - 9 by omega)]


/-!
Claim theorems.
-/

/-- C1: for every requested frequency, the frequency search of
`pwm_set_channel_frequency` tries the 11 fixed prescaler codes in
increasing order of division, computes the period as the
nearest-integer-rounded quotient, and accepts the first code whose period
lies in range — hence the accepted code minimizes division and maximizes
the period among all codes with an in-range period; in particular at
system clock 84 MHz, requested frequency 84 kHz, left alignment, it
succeeds with prescaler code 0 and period 1000. -/
theorem C1_channel_frequency_first_fit :
    (∀ sysclk f bound c p, pwm_find_setting sysclk f bound = some (c, p) →
      c < 11 ∧ p = pwm_candidate sysclk f c ∧ 1 ≤ p ∧ p ≤ bound ∧
      (∀ j, j < c →
        ¬(1 ≤ pwm_candidate sysclk f j ∧ pwm_candidate sysclk f j ≤ bound)) ∧
      (∀ j, c ≤ j → pwm_candidate sysclk f j ≤ pwm_candidate sysclk f c)) ∧
    pwm_find_setting 84000000 84000 65535 = some (0, 1000) ∧
    pwm_get_channel_alignment pwmZero 0 = PWM_CHANNEL_ALIGN_LEFT ∧
    (pwm_set_channel_frequency 84000000 pwmZero 0 84000).1 = 1 ∧
    getReg (pwm_set_channel_frequency 84000000 pwmZero 0 84000).2.cmr 0
      &&& PWM_CMRx_CPRE_MASK = 0 ∧
    getReg (pwm_set_channel_frequency 84000000 pwmZero 0 84000).2.cprd 0 = 1000 := by
  refine ⟨?_, by decide, by decide, by decide, by decide, by decide⟩
  intro sysclk f bound c p h
  obtain ⟨h1, h2, h3, h4, h5, h6⟩ := searchAux_some sysclk f bound 11 0 c p h
  exact ⟨by omega, h3, h4, h5, fun j hj => h6 j (by omega) hj,
    fun j hj => pwm_candidate_antitone sysclk f hj⟩

/-- Witness for C1: the search at 84 MHz / 84 kHz returns period 1000,
which indeed is the rounded quotient at prescaler code 0. -/
theorem C1_channel_frequency_first_fit_witness :
    (1000 : Nat) = pwm_candidate 84000000 84000 0 :=
  (C1_channel_frequency_first_fit.1 84000000 84000 65535 0 1000 (by decide)).2.1

/-- C2 counterexample: writing prescaler 5 and divisor 7 to clock A places
7 — the divisor, not the prescaler — in bits 0-3 of the clock register,
and the clock-A prescaler mask of the source is 0xF00, not 0xF: the
claimed layout (prescaler in bits 0-3) is false. -/
theorem C2_clock_layout_counterexample :
    ((pwm_set_clkx pwmZero PWM_CLK_ID_CLKA 5 7).2.clk &&& 0xF) = 7 ∧ (5 : Nat) ≠ 7 ∧
    PWM_CLK_PREA_MASK ≠ 0xF := by
  decide

/-- C2 amended: in the clock register, bits 0-7 hold the clock-A divisor,
bits 8-11 the clock-A prescaler code, bits 16-23 the clock-B divisor and
bits 24-27 the clock-B prescaler code (masks 0xFF, 0xF00, 0xFF0000,
0x0F000000), and the clock-write operation places the fields at exactly
these positions. -/
theorem C2_clock_layout_amended :
    PWM_CLK_DIVA_MASK = 0xFF ∧ PWM_CLK_PREA_MASK = 0xF00 ∧
    PWM_CLK_DIVB_MASK = 0xFF0000 ∧ PWM_CLK_PREB_MASK = 0x0F000000 ∧
    (∀ s p d, p < 16 → d < 256 →
      (∀ i, i < 8 →
        ((pwm_set_clkx s PWM_CLK_ID_CLKA p d).2.clk).testBit i = d.testBit i) ∧
      (∀ i, 8 ≤ i → i < 12 →
        ((pwm_set_clkx s PWM_CLK_ID_CLKA p d).2.clk).testBit i = p.testBit (i - 8)) ∧
      (∀ i, 16 ≤ i → i < 24 →
        ((pwm_set_clkx s PWM_CLK_ID_CLKB p d).2.clk).testBit i = d.testBit (i - 16)) ∧
      (∀ i, 24 ≤ i → i < 28 →
        ((pwm_set_clkx s PWM_CLK_ID_CLKB p d).2.clk).testBit i = p.testBit (i - 24))) := by
  refine ⟨by decide, by decide, by decide, by decide, ?_⟩
  intro s p d hp hd
  exact ⟨fun i hi => clkA_write_low s p d i hi,
    fun i h1 h2 => clkA_write_pres s p d hd i h1 h2,
    fun i h1 h2 => clkB_write_div s p d i h1 h2,
    fun i h1 h2 => clkB_write_pres s p d hd i h1 h2⟩

/-- Witness for C2 amended: after writing prescaler 5 and divisor 7 to
clock A on the zero state, bit 0 of the register is bit 0 of the divisor
and bit 8 is bit 0 of the prescaler. -/
theorem C2_clock_layout_amended_witness :
    ((pwm_set_clkx pwmZero PWM_CLK_ID_CLKA 5 7).2.clk).testBit 0 = Nat.testBit 7 0 ∧
    ((pwm_set_clkx pwmZero PWM_CLK_ID_CLKA 5 7).2.clk).testBit 8 = Nat.testBit 5 0 :=
  ⟨(C2_clock_layout_amended.2.2.2.2 pwmZero 5 7 (by decide) (by decide)).1 0 (by decide),
   (C2_clock_layout_amended.2.2.2.2 pwmZero 5 7 (by decide) (by decide)).2.1 8
     (by decide) (by decide)⟩

/-- C3: when the search finds no prescaler (or no prescaler-divisor pair)
in range — the unrepresentable-frequency condition —
`pwm_set_channel_frequency` and `pwm_set_clkx_frequency` return failure
status 0 with the whole register state unchanged. -/
theorem C3_unrepresentable_no_write :
    (∀ sysclk s ch f, pwm_find_setting sysclk f (chanMaxPeriod s ch) = none →
        pwm_set_channel_frequency sysclk s ch f = (0, s)) ∧
    (∀ sysclk s ch f cid, pwm_find_setting sysclk f 255 = none →
        pwm_set_clkx_frequency sysclk s ch f cid = (0, s)) := by
  constructor
  · intro sysclk s ch f h
    unfold pwm_set_channel_frequency
    split
    · rfl
    · simp only [h]
  · intro sysclk s ch f cid h
    unfold pwm_set_clkx_frequency
    simp only [h]

/-- Witness for C3: 1 Hz is unrepresentable for a channel and 100 Hz is
unrepresentable for an auxiliary clock at 84 MHz; both calls fail and
leave the zero state untouched. -/
theorem C3_unrepresentable_no_write_witness :
    pwm_set_channel_frequency 84000000 pwmZero 0 1 = (0, pwmZero) ∧
    pwm_set_clkx_frequency 84000000 pwmZero 0 100 PWM_CLK_ID_CLKA = (0, pwmZero) :=
  ⟨C3_unrepresentable_no_write.1 84000000 pwmZero 0 1 (by decide),
   C3_unrepresentable_no_write.2 84000000 pwmZero 0 100 PWM_CLK_ID_CLKA (by decide)⟩

/-- C4: both reconfiguration calls preserve the reconfigured channel's
enabled state on every exit path: after `pwm_set_channel_frequency` or
`pwm_init_channel` the channel's status bit equals its value before the
call. -/
theorem C4_enable_state_preserved :
    (∀ sysclk s ch f,
      pwm_channel_status (pwm_set_channel_frequency sysclk s ch f).2 ch
        = pwm_channel_status s ch) ∧
    (∀ sysclk s c,
      pwm_channel_status (pwm_init_channel sysclk s c).2 c.channel
        = pwm_channel_status s c.channel) :=
  ⟨status_preserved_set_frequency, status_preserved_init_channel⟩

/-- C5: a duty cycle not exceeding the channel's programmed period is
accepted (equality included); a duty cycle exceeding it makes
`pwm_set_channel_duty_cycle` return failure status 0 with the whole
register state, the duty register included, unchanged. -/
theorem C5_duty_cycle_boundary :
    ∀ s ch duty, ch < 8 →
      (duty ≤ getReg s.cprd ch → (pwm_set_channel_duty_cycle s ch duty).1 = 1) ∧
      (getReg s.cprd ch < duty → pwm_set_channel_duty_cycle s ch duty = (0, s)) := by
  intro s ch duty hch
  constructor
  · intro hle
    unfold pwm_set_channel_duty_cycle
    rw [if_neg (by omega), if_neg (by omega)]
    split <;> rfl
  · intro hgt
    unfold pwm_set_channel_duty_cycle
    rw [if_neg (by omega), if_pos hgt]

/-- Witness for C5: with period 1000 programmed on channel 0, duty 1000
succeeds and duty 1001 fails leaving the state unchanged. -/
theorem C5_duty_cycle_boundary_witness :
    (pwm_set_channel_duty_cycle (pwm_set_channel_period pwmZero 0 1000) 0 1000).1 = 1 ∧
    pwm_set_channel_duty_cycle (pwm_set_channel_period pwmZero 0 1000) 0 1001
      = (0, pwm_set_channel_period pwmZero 0 1000) :=
  ⟨(C5_duty_cycle_boundary (pwm_set_channel_period pwmZero 0 1000) 0 1000
      (by decide)).1 (by decide),
   (C5_duty_cycle_boundary (pwm_set_channel_period pwmZero 0 1000) 0 1001
      (by decide)).2 (by decide)⟩

/-- C6 counterexample: at system clock 84 MHz a request of 100 Hz admits
no prescaler-divisor pair with divisor in [1, 255] — every candidate
divisor exceeds 255 — so `pwm_set_clkx_frequency` fails instead of
choosing a pair. -/
theorem C6_clkx_counterexample :
    pwm_find_setting 84000000 100 255 = none ∧
    pwm_set_clkx_frequency 84000000 pwmZero 0 100 PWM_CLK_ID_CLKA = (0, pwmZero) := by
  decide

/-- C6 amended: `pwm_set_clkx_frequency` scans the 11 fixed prescalers in
increasing order of division, computes the divisor as the rounded
quotient, accepts the first pair with divisor in [1, 255] and commits it
through `pwm_set_clkx`; 100 Hz at 84 MHz is unrepresentable, but a
representable request such as 400 Hz yields the pair (divide-by-1024,
divisor 205), whose product misses the scaled clock by at most half a
divisor step. -/
theorem C6_clkx_divisor_first_fit_amended :
    (∀ sysclk f c d, pwm_find_setting sysclk f 255 = some (c, d) →
      c < 11 ∧ d = pwm_candidate sysclk f c ∧ 1 ≤ d ∧ d ≤ 255 ∧
      ∀ j, j < c → ¬(1 ≤ pwm_candidate sysclk f j ∧ pwm_candidate sysclk f j ≤ 255)) ∧
    (∀ sysclk s chn f c d, pwm_find_setting sysclk f 255 = some (c, d) →
      pwm_set_clkx_frequency sysclk s chn f PWM_CLK_ID_CLKA
        = pwm_set_clkx s PWM_CLK_ID_CLKA c d) ∧
    pwm_find_setting 84000000 400 255 = some (10, 205) ∧
    205 * 400 ≤ 84000000 / 2 ^ 10 ∧
    84000000 / 2 ^ 10 - 205 * 400 ≤ 400 / 2 := by
  refine ⟨?_, ?_, by decide, by decide, by decide⟩
  · intro sysclk f c d h
    obtain ⟨h1, h2, h3, h4, h5, h6⟩ := searchAux_some sysclk f 255 11 0 c d h
    exact ⟨by omega, h3, h4, h5, fun j hj => h6 j (by omega) hj⟩
  · intro sysclk s chn f c d h
    unfold pwm_set_clkx_frequency
    simp only [h]

/-- Witness for C6 amended: the pair found for 400 Hz carries divisor 205,
the rounded quotient at prescaler code 10. -/
theorem C6_clkx_divisor_first_fit_amended_witness :
    (205 : Nat) = pwm_candidate 84000000 400 10 :=
  (C6_clkx_divisor_first_fit_amended.1 84000000 400 10 205 (by decide)).2.1

/-- C7: every write to one auxiliary clock's fields — `pwm_set_clkx`,
`pwm_set_clkx_frequency` and `pwm_turn_off_clkx` — leaves every bit of
the other auxiliary clock's divisor and prescaler fields unchanged
(clock A's fields are bits 0-11, clock B's bits 16-27). -/
theorem C7_auxiliary_clock_isolation :
    (∀ s p d, p < 16 → d < 256 → ∀ i, 16 ≤ i → i < 28 →
        ((pwm_set_clkx s PWM_CLK_ID_CLKA p d).2.clk).testBit i = s.clk.testBit i) ∧
    (∀ s p d, ∀ i, i < 12 →
        ((pwm_set_clkx s PWM_CLK_ID_CLKB p d).2.clk).testBit i = s.clk.testBit i) ∧
    (∀ sysclk s chn f, ∀ i, 16 ≤ i → i < 28 →
        ((pwm_set_clkx_frequency sysclk s chn f PWM_CLK_ID_CLKA).2.clk).testBit i
          = s.clk.testBit i) ∧
    (∀ sysclk s chn f, ∀ i, i < 12 →
        ((pwm_set_clkx_frequency sysclk s chn f PWM_CLK_ID_CLKB).2.clk).testBit i
          = s.clk.testBit i) ∧
    (∀ s, ∀ i, 16 ≤ i → i < 28 →
        ((pwm_turn_off_clkx s PWM_CLK_ID_CLKA).2.clk).testBit i = s.clk.testBit i) ∧
    (∀ s, ∀ i, i < 12 →
        ((pwm_turn_off_clkx s PWM_CLK_ID_CLKB).2.clk).testBit i = s.clk.testBit i) := by
  refine ⟨?_, ?_, ?_, ?_, ?_, ?_⟩
  · intro s p d hp hd i h1 h2
    exact clkA_write_high s p d hp hd i (by omega) (by omega)
  · intro s p d i h1
    exact clkB_write_out_low s p d i (by omega)
  · intro sysclk s chn f i h1 h2
    unfold pwm_set_clkx_frequency
    cases hfind : pwm_find_setting sysclk f 255 with
    | none => rfl
    | some cp =>
      obtain ⟨code, d⟩ := cp
      obtain ⟨ha, hb, hc, hd1, hd255, he⟩ := searchAux_some sysclk f 255 11 0 code d hfind
      exact clkA_write_high s code d (by omega) (by omega) i (by omega) (by omega)
  · intro sysclk s chn f i h1
    unfold pwm_set_clkx_frequency
    cases hfind : pwm_find_setting sysclk f 255 with
    | none => rfl
    | some cp =>
      obtain ⟨code, d⟩ := cp
      exact clkB_write_out_low s code d i (by omega)
  · intro s i h1 h2
    exact turnoffA_high s i (by omega) (by omega)
  · intro s i h1
    exact turnoffB_low s i (by omega)

/-- Witness for C7: a clock-A write leaves bit 20 (a clock-B divisor bit)
unchanged and turning clock B off leaves bit 5 (a clock-A divisor bit)
unchanged on the zero state. -/
theorem C7_auxiliary_clock_isolation_witness :
    ((pwm_set_clkx pwmZero PWM_CLK_ID_CLKA 3 9).2.clk).testBit 20
        = pwmZero.clk.testBit 20 ∧
    ((pwm_turn_off_clkx pwmZero PWM_CLK_ID_CLKB).2.clk).testBit 5
        = pwmZero.clk.testBit 5 :=
  ⟨C7_auxiliary_clock_isolation.1 pwmZero 3 9 (by decide) (by decide) 20
      (by decide) (by decide),
   C7_auxiliary_clock_isolation.2.2.2.2.2 pwmZero 5 (by decide)⟩

/-- C8: in every channel mode register, bits 0-3 hold the prescaler code —
with sentinel 11 selecting clock A and 12 selecting clock B — bit 8 the
alignment and bit 9 the polarity; the channel operations place the fields
at exactly these positions, and channel initialization with an auxiliary
clock writes the matching sentinel into bits 0-3. -/
theorem C8_channel_mode_layout :
    PWM_CMRx_CPRE_MASK = 0xF ∧ PWM_CMRx_CALG_MASK = 0x100 ∧
    PWM_CMRx_CPOL_MASK = 0x200 ∧
    PWM_PRES_CLOCKA = 11 ∧ PWM_PRES_CLOCKB = 12 ∧
    (∀ s ch code, code < 16 → ch < s.cmr.length →
      (∀ i, i < 4 →
        (getReg (setCmrPres s ch code).cmr ch).testBit i = code.testBit i) ∧
      (∀ i, 4 ≤ i → i < 32 →
        (getReg (setCmrPres s ch code).cmr ch).testBit i
          = (getReg s.cmr ch).testBit i)) ∧
    (∀ s ch a, a < 2 → ch < s.cmr.length →
      (getReg (setCmrAlignment s ch a).cmr ch).testBit 8 = a.testBit 0 ∧
      (∀ i, i ≠ 8 → i < 32 →
        (getReg (setCmrAlignment s ch a).cmr ch).testBit i
          = (getReg s.cmr ch).testBit i)) ∧
    (∀ s ch pol, pol < 2 → ch < s.cmr.length →
      (getReg (setCmrPolarity s ch pol).cmr ch).testBit 9 = pol.testBit 0 ∧
      (∀ i, i ≠ 9 → i < 32 →
        (getReg (setCmrPolarity s ch pol).cmr ch).testBit i
          = (getReg s.cmr ch).testBit i)) ∧
    getReg (pwm_init_channel 84000000 pwmZero ⟨0, 1, 1, 0, 1, 0, PWM_CLK_ID_CLKA⟩).2.cmr 0
      &&& PWM_CMRx_CPRE_MASK = PWM_PRES_CLOCKA ∧
    getReg (pwm_init_channel 84000000 pwmZero ⟨1, 0, 0, 0, 1, 0, PWM_CLK_ID_CLKB⟩).2.cmr 1
      &&& PWM_CMRx_CPRE_MASK = PWM_PRES_CLOCKB ∧
    (getReg (pwm_init_channel 84000000 pwmZero
      ⟨0, 1, 1, 0, 1, 0, PWM_CLK_ID_CLKA⟩).2.cmr 0).testBit 8 = true ∧
    (getReg (pwm_init_channel 84000000 pwmZero
      ⟨0, 1, 1, 0, 1, 0, PWM_CLK_ID_CLKA⟩).2.cmr 0).testBit 9 = true := by
  refine ⟨by decide, by decide, by decide, by decide, by decide, ?_, ?_, ?_,
    by decide, by decide, by decide, by decide⟩
  · intro s ch code hcode h
    exact ⟨fun i hi => cmrPres_low s ch code h i hi,
      fun i h4 h32 => cmrPres_high s ch code hcode h i h4 h32⟩
  · intro s ch a ha h
    exact ⟨cmrAlign_bit s ch a h, fun i hi h32 => cmrAlign_other s ch a ha h i hi h32⟩
  · intro s ch pol hp h
    exact ⟨cmrPol_bit s ch pol h, fun i hi h32 => cmrPol_other s ch pol hp h i hi h32⟩

/-- Witness for C8: writing prescaler code 11 places its bit 0 at register
bit 0, and writing alignment 1 and polarity 1 set register bits 8 and 9
on the zero state. -/
theorem C8_channel_mode_layout_witness :
    (getReg (setCmrPres pwmZero 0 11).cmr 0).testBit 0 = Nat.testBit 11 0 ∧
    (getReg (setCmrAlignment pwmZero 0 1).cmr 0).testBit 8 = Nat.testBit 1 0 ∧
    (getReg (setCmrPolarity pwmZero 0 1).cmr 0).testBit 9 = Nat.testBit 1 0 :=
  ⟨(C8_channel_mode_layout.2.2.2.2.2.1 pwmZero 0 11 (by decide) (by decide)).1 0
      (by decide),
   (C8_channel_mode_layout.2.2.2.2.2.2.1 pwmZero 0 1 (by decide) (by decide)).1,
   (C8_channel_mode_layout.2.2.2.2.2.2.2.1 pwmZero 0 1 (by decide) (by decide)).1⟩

/-- C9: `pio_set_pins` writes only the PIO_SODR register — for level 1 it
ors the selected pins into PIO_SODR, for any other level it and-nots
them out — and every other register of the port, the clear-data register
included, keeps its value. -/
theorem C9_pio_set_pins_sodr_only :
    ∀ port pins level,
      ((pio_set_pins port pins level).PIO_PER = port.PIO_PER ∧
       (pio_set_pins port pins level).PIO_ODR = port.PIO_ODR ∧
       (pio_set_pins port pins level).PIO_OER = port.PIO_OER ∧
       (pio_set_pins port pins level).PIO_PUER = port.PIO_PUER ∧
       (pio_set_pins port pins level).PIO_PUDR = port.PIO_PUDR ∧
       (pio_set_pins port pins level).PIO_CODR = port.PIO_CODR ∧
       (pio_set_pins port pins level).PIO_PDSR = port.PIO_PDSR) ∧
      (level = 1 →
        (pio_set_pins port pins level).PIO_SODR = port.PIO_SODR ||| pins) ∧
      (level ≠ 1 →
        (pio_set_pins port pins level).PIO_SODR
          = port.PIO_SODR &&& (mask32 ^^^ pins)) := by
  intro port pins level
  by_cases h : level = 1 <;> simp [pio_set_pins, h]

/-- Witness for C9: on the zero port, setting pins 0 and 2 high ors 5 into
PIO_SODR and leaves PIO_CODR alone; level 0 and-nots the pins out. -/
theorem C9_pio_set_pins_sodr_only_witness :
    (pio_set_pins pioZero 5 1).PIO_CODR = pioZero.PIO_CODR ∧
    (pio_set_pins pioZero 5 1).PIO_SODR = pioZero.PIO_SODR ||| 5 ∧
    (pio_set_pins pioZero 5 0).PIO_SODR = pioZero.PIO_SODR &&& (mask32 ^^^ 5) :=
  ⟨(C9_pio_set_pins_sodr_only pioZero 5 1).1.2.2.2.2.2.1,
   (C9_pio_set_pins_sodr_only pioZero 5 1).2.1 (by decide),
   (C9_pio_set_pins_sodr_only pioZero 5 0).2.2 (by decide)⟩

/-- C10: for every resolution argument other than 0 and 1,
`adc_set_resolution` is the identity on the whole ADC register state —
whatever the `ADC_MR_RES` macro evaluates to — and the arguments 0 and 1
do write the mode register. -/
theorem C10_adc_resolution_frame :
    (∀ mrres adc r, r ≠ 0 → r ≠ 1 → adc_set_resolution mrres adc r = adc) ∧
    adc_set_resolution (fun _ => 16) ⟨0, 0, 0, 0, 0⟩ 1 ≠ (⟨0, 0, 0, 0, 0⟩ : adc_reg_t) ∧
    adc_set_resolution (fun _ => 0) ⟨0, 255, 0, 0, 0⟩ 0
      ≠ (⟨0, 255, 0, 0, 0⟩ : adc_reg_t) := by
  refine ⟨?_, by decide, by decide⟩
  intro mrres adc r h0 h1
  unfold adc_set_resolution
  rw [if_neg h0, if_neg h1]

/-- Witness for C10: resolution argument 2 leaves a sample register state
unchanged. -/
theorem C10_adc_resolution_frame_witness :
    adc_set_resolution (fun _ => 16) ⟨1, 2, 3, 4, 5⟩ 2 = (⟨1, 2, 3, 4, 5⟩ : adc_reg_t) :=
  C10_adc_resolution_frame.1 (fun _ => 16) ⟨1, 2, 3, 4, 5⟩ 2 (by decide) (by decide)
